import Mathlib

/-!
Verification of the wayfire per-output frame compositing pipeline
(src/output/render-manager.cpp, src/view/view-3d.cpp,
plugins/grid/wayfire/plugins/crossfade.hpp).

The C++ code is shallowly embedded: machine integers (int, int32_t,
int64_t) are modelled as Int (all quantities involved stay far from
overflow in the source), stateful classes become structures with
explicit state passing, GPU side effects (glGenTextures or
glDeleteTextures) are modelled by threading a fresh-id counter and a
list of freed texture ids through the state, and double precision
floating point used by the geometry code is modelled by the reals, as
the specification states its geometric properties exactly over the
reals.
-/

/- ------------------------------------------------------------------ -/
/- Frame pacer: repaint_delay_manager_t                                -/
/- ------------------------------------------------------------------ -/

/-- The C++ helper clamp(v, lo, hi) = min(max(v, lo), hi). -/
def wfclamp (v lo hi : Int) : Int := min (max v lo) hi

/-- Configuration options read by the repaint delay manager:
core/max_render_time (-1 when unconfigured) and
workarounds/dynamic_repaint_delay. -/
structure PacerConfig where
  max_render_time : Int
  dynamic_delay : Bool
deriving Repr, DecidableEq

/-- State of repaint_delay_manager_t.  refresh is the refresh interval
in milliseconds (the source keeps refresh_nsec and divides by 1e6 at
each use; we carry the already-converted value).  last_pageflip = -1
encodes the invalid / skipped-frame marker. -/
structure PacerState where
  delay : Int
  increase_window : Int
  last_increase : Int
  expand_inc_window_on_miss : Int
  consecutive_decrease : Int
  last_pageflip : Int
  refresh : Int
deriving Repr, DecidableEq

def MIN_INCREASE_WINDOW : Int := 200

def MAX_INCREASE_WINDOW : Int := 30000

/-- repaint_delay_manager_t::update_delay.  Computes the new value of
the delay field; config_delay = max(0, refresh_ms - max_render_time).
The bounds depend on the configuration exactly as in the source:
max_render_time == -1 forces [0,0]; otherwise disabled dynamic delay
forces [config_delay, config_delay]; otherwise [0, config_delay]. -/
def update_delay (cfg : PacerConfig) (refresh delay delta : Int) : Int :=
  let config_delay := max 0 (refresh - cfg.max_render_time)
  let bounds : Int × Int :=
    if cfg.max_render_time = -1 then
      (0, 0)
    else if cfg.dynamic_delay = false then
      (config_delay, config_delay)
    else
      (0, config_delay)
  wfclamp (delay + delta) bounds.1 bounds.2

/-- repaint_delay_manager_t::skip_frame: mark the last frame invalid. -/
def skip_frame (s : PacerState) : PacerState :=
  { s with last_pageflip := -1 }

/-- repaint_delay_manager_t::start_frame, with the current time passed
explicitly.  on_time_thresh = int64_t(refresh * 1.5) is modelled as
3 * refresh / 2 (the double computation refresh * 1.5 is exact and its
int64_t truncation is the floor for the magnitudes involved), and
int64_t(increase_window * 0.75) likewise as 3 * increase_window / 4. -/
def start_frame (cfg : PacerConfig) (now : Int) (s : PacerState) : PacerState :=
  if s.last_pageflip = -1 then
    { s with last_pageflip := now }
  else
    let refresh := s.refresh
    let on_time_thresh := 3 * refresh / 2
    let last_frame_len := now - s.last_pageflip
    if last_frame_len ≤ on_time_thresh then
      if now - s.last_increase ≥ s.increase_window then
        { s with
          increase_window :=
            wfclamp (3 * s.increase_window / 4) MIN_INCREASE_WINDOW MAX_INCREASE_WINDOW,
          delay := update_delay cfg refresh s.delay 1,
          last_increase := now,
          expand_inc_window_on_miss := 20,
          consecutive_decrease := 1,
          last_pageflip := now }
      else
        { s with
          expand_inc_window_on_miss := s.expand_inc_window_on_miss - 1,
          consecutive_decrease := 1,
          last_pageflip := now }
    else
      { s with
        delay := update_delay cfg refresh s.delay (-s.consecutive_decrease),
        consecutive_decrease := wfclamp (s.consecutive_decrease * 2) 1 32,
        increase_window :=
          if s.expand_inc_window_on_miss ≥ 0 then
            wfclamp (s.increase_window * 2) MIN_INCREASE_WINDOW MAX_INCREASE_WINDOW
          else
            s.increase_window,
        last_increase := now,
        last_pageflip := now }

/-- Claim C1: on a present wake-up following a non-skipped frame
(last_pageflip is valid), with frame_length = now - last_pageflip and
the on-time test frame_length <= 1.5 * refresh stated exactly as
2 * frame_length <= 3 * refresh: on time with the increase window
elapsed, the window shrinks to three quarters (clamped to
[200ms, 30s]), the delay rises by 1ms through the clamped update, the
increase timer resets, the grace counter becomes 20 and the backoff
factor resets to 1; on time with the window not yet elapsed, only the
grace counter decrements and the backoff factor resets to 1; on a miss,
the delay drops by the current backoff factor through the clamped
update, the backoff factor doubles capped at 32, the increase window
doubles capped at 30s exactly when the grace counter had not expired
(is still nonnegative), and the increase timer resets.  The hypotheses
1 <= consecutive_decrease and 200 <= increase_window are the source
invariants for those fields. -/
theorem start_frame_follows_pacer_spec (cfg : PacerConfig) (now : Int)
    (s : PacerState) (hlp : s.last_pageflip ≠ -1)
    (hcd : 1 ≤ s.consecutive_decrease)
    (hwin : MIN_INCREASE_WINDOW ≤ s.increase_window) :
    (2 * (now - s.last_pageflip) ≤ 3 * s.refresh →
      s.increase_window ≤ now - s.last_increase →
      start_frame cfg now s =
        { s with
          increase_window :=
            wfclamp (3 * s.increase_window / 4) 200 30000,
          delay := update_delay cfg s.refresh s.delay 1,
          last_increase := now,
          expand_inc_window_on_miss := 20,
          consecutive_decrease := 1,
          last_pageflip := now }) ∧
    (2 * (now - s.last_pageflip) ≤ 3 * s.refresh →
      ¬(s.increase_window ≤ now - s.last_increase) →
      start_frame cfg now s =
        { s with
          expand_inc_window_on_miss := s.expand_inc_window_on_miss - 1,
          consecutive_decrease := 1,
          last_pageflip := now }) ∧
    (¬(2 * (now - s.last_pageflip) ≤ 3 * s.refresh) →
      start_frame cfg now s =
        { s with
          delay := update_delay cfg s.refresh s.delay (-s.consecutive_decrease),
          consecutive_decrease := min (s.consecutive_decrease * 2) 32,
          increase_window :=
            if 0 ≤ s.expand_inc_window_on_miss then
              min (s.increase_window * 2) 30000
            else
              s.increase_window,
          last_increase := now,
          last_pageflip := now }) := by
  have hthresh : (now - s.last_pageflip ≤ 3 * s.refresh / 2) ↔
      (2 * (now - s.last_pageflip) ≤ 3 * s.refresh) := by
    rw [Int.le_ediv_iff_mul_le (by norm_num : (0:Int) < 2)]
    omega
  refine ⟨?_, ?_, ?_⟩
  · intro h1 h2
    rw [start_frame]
    simp only [if_neg hlp, hthresh.mpr h1, if_pos h1, ge_iff_le, if_pos h2]
    simp [MIN_INCREASE_WINDOW, MAX_INCREASE_WINDOW]
  · intro h1 h2
    rw [start_frame]
    simp only [if_neg hlp, hthresh.mpr h1, if_pos h1, ge_iff_le, if_neg h2]
    simp
  · intro h1
    rw [start_frame]
    have h1x : ¬(now - s.last_pageflip ≤ 3 * s.refresh / 2) := by
      intro hc
      exact h1 (hthresh.mp hc)
    simp only [if_neg hlp, if_neg h1x, ge_iff_le]
    have hc32 : wfclamp (s.consecutive_decrease * 2) 1 32 =
        min (s.consecutive_decrease * 2) 32 := by
      simp only [wfclamp]
      omega
    have hcw : wfclamp (s.increase_window * 2) MIN_INCREASE_WINDOW MAX_INCREASE_WINDOW =
        min (s.increase_window * 2) 30000 := by
      simp only [wfclamp, MIN_INCREASE_WINDOW, MAX_INCREASE_WINDOW] at *
      omega
    rw [hc32, hcw]

/-- Witness for C1 at a concrete state: a missed frame
(frame_length = 40ms, refresh = 16ms) halves the delay path as
specified. -/
theorem start_frame_follows_pacer_spec_witness :
    start_frame ⟨10, true⟩ 40
      { delay := 5, increase_window := 200, last_increase := 0,
        expand_inc_window_on_miss := 3, consecutive_decrease := 2,
        last_pageflip := 0, refresh := 16 } =
      { delay := update_delay ⟨10, true⟩ 16 5 (-2),
        increase_window := min (200 * 2) 30000,
        last_increase := 40,
        expand_inc_window_on_miss := 3,
        consecutive_decrease := min (2 * 2) 32,
        last_pageflip := 40, refresh := 16 } := by
  have h := (start_frame_follows_pacer_spec ⟨10, true⟩ 40
    { delay := 5, increase_window := 200, last_increase := 0,
      expand_inc_window_on_miss := 3, consecutive_decrease := 2,
      last_pageflip := 0, refresh := 16 }
    (by decide) (by decide) (by decide)).2.2 (by decide)
  rw [h]
  decide

/-- Claim C2: every delay update lands in [0, configured_max] with
configured_max = max(0, refresh - max_render_time); an unconfigured
budget (max_render_time = -1) forces delay = 0; disabled dynamic
adjustment with a configured budget pins delay to configured_max. -/
theorem update_delay_bounds (cfg : PacerConfig) (refresh delay delta : Int) :
    0 ≤ update_delay cfg refresh delay delta ∧
    update_delay cfg refresh delay delta ≤ max 0 (refresh - cfg.max_render_time) ∧
    (cfg.max_render_time = -1 → update_delay cfg refresh delay delta = 0) ∧
    (cfg.max_render_time ≠ -1 → cfg.dynamic_delay = false →
      update_delay cfg refresh delay delta = max 0 (refresh - cfg.max_render_time)) := by
  simp only [update_delay, wfclamp]
  by_cases h1 : cfg.max_render_time = -1
  · simp only [if_pos h1]
    refine ⟨by omega, by omega, fun _ => by omega, fun hc => absurd h1 hc⟩
  · simp only [if_neg h1]
    by_cases h2 : cfg.dynamic_delay = false
    · simp only [if_pos h2]
      refine ⟨by omega, by omega, fun hc => absurd hc h1, fun _ _ => by omega⟩
    · simp only [if_neg h2]
      refine ⟨by omega, by omega, fun hc => absurd hc h1, fun _ hc => absurd hc h2⟩

/-- Witness for C2 at a concrete input: max_render_time unconfigured
forces a zero delay. -/
theorem update_delay_bounds_witness :
    0 ≤ update_delay ⟨-1, true⟩ 16 5 1 ∧ update_delay ⟨-1, true⟩ 16 5 1 = 0 := by
  refine ⟨(update_delay_bounds ⟨-1, true⟩ 16 5 1).1, ?_⟩
  exact (update_delay_bounds ⟨-1, true⟩ 16 5 1).2.2.1 rfl

/- ------------------------------------------------------------------ -/
/- Depth buffer cache: depth_buffer_manager_t                          -/
/- ------------------------------------------------------------------ -/

/-- One cached depth buffer.  tex models the GLuint texture name, with
-1 standing for the invalid marker (GLuint)-1 of the source.  The
defaults are the field initializers of the C++ struct. -/
structure depth_buffer_t where
  tex : Int := -1
  attached_to : Int := -1
  width : Int := 0
  height : Int := 0
  last_used : Int := 0
deriving Repr, DecidableEq

/-- State of depth_buffer_manager_t.  The GL side effects are made
explicit: next_tex is the next fresh texture name glGenTextures would
hand out, freed accumulates every texture name passed to
glDeleteTextures. -/
structure depth_buffer_manager_t where
  required_counter : Int := 0
  buffers : List depth_buffer_t := []
  freed : List Int := []
  next_tex : Int := 1
deriving Repr, DecidableEq

def MAX_BUFFERS : Nat := 3

/-- depth_buffer_manager_t::free_buffer: delete the GL texture when it
is valid.  The cached record itself is not touched by the source. -/
def free_buffer (s : depth_buffer_manager_t) (b : depth_buffer_t) :
    depth_buffer_manager_t :=
  if b.tex ≠ -1 then { s with freed := s.freed ++ [b.tex] } else s

/-- depth_buffer_manager_t::free_all_buffers: free every cached
texture.  The buffers vector is not cleared by the source. -/
def free_all_buffers (s : depth_buffer_manager_t) : depth_buffer_manager_t :=
  s.buffers.foldl free_buffer s

/-- depth_buffer_manager_t::set_required. -/
def set_required (s : depth_buffer_manager_t) (require : Bool) :
    depth_buffer_manager_t :=
  let s1 := { s with
    required_counter := s.required_counter + (if require then 1 else -1) }
  if s1.required_counter ≤ 0 then free_all_buffers s1 else s1

/-- The scanning loop of find_buffer that picks the eviction victim:
oldest starts at the front and is replaced whenever a strictly smaller
last_used is seen, so the first entry with the minimal timestamp wins. -/
def oldest_go : List depth_buffer_t → Int → Nat → Nat → Nat
  | [], _, _, best => best
  | b :: rest, bestLU, cur, best =>
    if b.last_used < bestLU then oldest_go rest b.last_used (cur + 1) cur
    else oldest_go rest bestLU (cur + 1) best

/-- Index of the entry depth_buffer_manager_t::find_buffer evicts when
the cache is full. -/
def oldestIdx : List depth_buffer_t → Nat
  | [] => 0
  | b :: rest => oldest_go rest b.last_used 1 0

/-- depth_buffer_manager_t::find_buffer: reuse the entry attached to
fb, else grow the vector while below MAX_BUFFERS, else evict the entry
with the smallest last_used.  Returns the updated state and the index
of the chosen entry. -/
def find_buffer (s : depth_buffer_manager_t) (fb : Int) :
    depth_buffer_manager_t × Nat :=
  match s.buffers.findIdx? (fun b => b.attached_to == fb) with
  | some i => (s, i)
  | none =>
    if s.buffers.length < MAX_BUFFERS then
      ({ s with buffers := s.buffers ++ [{}] }, s.buffers.length)
    else
      (s, oldestIdx s.buffers)

/-- depth_buffer_manager_t::attach_buffer on the entry at index i: a
no-op when the entry already matches fb at the same size, otherwise the
old texture is freed and a freshly generated texture is attached, with
last_used set to the current time. -/
def attach_buffer (s : depth_buffer_manager_t) (i : Nat)
    (fb w h now : Int) : depth_buffer_manager_t :=
  match s.buffers[i]? with
  | none => s
  | some b =>
    if b.attached_to = fb ∧ b.width = w ∧ b.height = h then s
    else
      let s1 := free_buffer s b
      { s1 with
        buffers := s1.buffers.set i
          { tex := s1.next_tex, attached_to := fb, width := w, height := h,
            last_used := now },
        next_tex := s1.next_tex + 1 }

/-- depth_buffer_manager_t::ensure_depth_buffer, with the current time
passed explicitly. -/
def ensure_depth_buffer (s : depth_buffer_manager_t)
    (fb w h now : Int) : depth_buffer_manager_t :=
  if fb = 0 ∨ s.required_counter ≤ 0 then s
  else
    let fi := find_buffer s fb
    attach_buffer fi.1 fi.2 fb w h now

/-- free_buffer changes only the freed list. -/
theorem free_buffer_state (s : depth_buffer_manager_t) (b : depth_buffer_t) :
    (free_buffer s b).buffers = s.buffers ∧
    (free_buffer s b).required_counter = s.required_counter ∧
    (free_buffer s b).next_tex = s.next_tex ∧
    (∀ t ∈ s.freed, t ∈ (free_buffer s b).freed) ∧
    (b.tex ≠ -1 → b.tex ∈ (free_buffer s b).freed) := by
  unfold free_buffer
  split_ifs with h
  · refine ⟨rfl, rfl, rfl, ?_, ?_⟩
    · intro t ht
      simp [ht]
    · intro _
      simp
  · exact ⟨rfl, rfl, rfl, fun t ht => ht, fun hc => absurd hc h⟩

/-- Folding free_buffer over any list keeps the rest of the state and
records every valid texture of the list as freed. -/
theorem foldl_free_buffer_state (l : List depth_buffer_t)
    (s : depth_buffer_manager_t) :
    (l.foldl free_buffer s).buffers = s.buffers ∧
    (l.foldl free_buffer s).required_counter = s.required_counter ∧
    (∀ t ∈ s.freed, t ∈ (l.foldl free_buffer s).freed) ∧
    (∀ b ∈ l, b.tex ≠ -1 → b.tex ∈ (l.foldl free_buffer s).freed) := by
  induction l generalizing s with
  | nil => exact ⟨rfl, rfl, fun t ht => ht, by simp⟩
  | cons b rest ih =>
    have hb := free_buffer_state s b
    have hr := ih (free_buffer s b)
    refine ⟨by rw [List.foldl_cons, hr.1, hb.1],
      by rw [List.foldl_cons, hr.2.1, hb.2.1], ?_, ?_⟩
    · intro t ht
      exact hr.2.2.1 t (hb.2.2.2.1 t ht)
    · intro x hx hxt
      rcases List.mem_cons.mp hx with hx0 | hxrest
      · subst hx0
        exact hr.2.2.1 x.tex (hb.2.2.2.2 hxt)
      · exact hr.2.2.2 x hxrest hxt

/-- Claim C3, counterexample: insert one depth buffer (fb = 1) under
required = true, then set_required(false).  The freed list shows the
texture was deleted, but the buffers vector is NOT emptied; after
requiring again, a later ensure_depth_buffer for the same framebuffer
at the same size matches the stale entry and returns with the state
unchanged, so it reuses an entry whose texture is already freed. -/
theorem set_required_false_empties_cache_counterexample :
    (set_required (ensure_depth_buffer (set_required {} true) 1 100 100 10)
        false).buffers ≠ [] ∧
    (set_required (set_required
        (ensure_depth_buffer (set_required {} true) 1 100 100 10)
        false) true).buffers.map (fun b => b.tex) = [1] ∧
    (1 : Int) ∈ (set_required (set_required
        (ensure_depth_buffer (set_required {} true) 1 100 100 10)
        false) true).freed ∧
    ensure_depth_buffer (set_required (set_required
        (ensure_depth_buffer (set_required {} true) 1 100 100 10)
        false) true) 1 100 100 20 =
      set_required (set_required
        (ensure_depth_buffer (set_required {} true) 1 100 100 10)
        false) true := by
  decide

/-- Claim C3, amended: when set_required(false) brings the shared
required counter to <= 0, every valid texture held by the cache is
freed immediately, but the cache entries themselves remain in place
(the buffers vector is unchanged, not emptied), so a subsequent
ensure_depth_buffer can still observe a stale entry. -/
theorem set_required_false_frees_but_keeps_entries
    (s : depth_buffer_manager_t) (h : s.required_counter ≤ 1) :
    (set_required s false).buffers = s.buffers ∧
    (set_required s false).required_counter = s.required_counter - 1 ∧
    ∀ b ∈ s.buffers, b.tex ≠ -1 → b.tex ∈ (set_required s false).freed := by
  unfold set_required
  simp only [if_neg (by decide : ¬(false = true)), ite_false]
  have hle : s.required_counter + -1 ≤ 0 := by omega
  rw [if_pos hle]
  have hf := foldl_free_buffer_state s.buffers
    { s with required_counter := s.required_counter + -1 }
  unfold free_all_buffers
  refine ⟨hf.1, ?_, fun b hb hbt => hf.2.2.2 b hb hbt⟩
  rw [hf.2.1]
  show s.required_counter + -1 = s.required_counter - 1
  omega

/-- Witness for the amended C3 at a concrete state with one live
buffer and counter 1. -/
theorem set_required_false_frees_but_keeps_entries_witness :
    (set_required
        { required_counter := 1,
          buffers := [{ tex := 7, attached_to := 1, width := 100,
                        height := 100, last_used := 10 }],
          freed := [], next_tex := 8 } false).buffers =
      [{ tex := 7, attached_to := 1, width := 100, height := 100,
         last_used := 10 }] ∧
    (7 : Int) ∈ (set_required
        { required_counter := 1,
          buffers := [{ tex := 7, attached_to := 1, width := 100,
                        height := 100, last_used := 10 }],
          freed := [], next_tex := 8 } false).freed := by
  have h := set_required_false_frees_but_keeps_entries
    { required_counter := 1,
      buffers := [{ tex := 7, attached_to := 1, width := 100,
                    height := 100, last_used := 10 }],
      freed := [], next_tex := 8 } (by decide)
  exact ⟨h.1, h.2.2 { tex := 7, attached_to := 1, width := 100, height := 100, last_used := 10 } (by decide) (by decide)⟩

/-- attach_buffer never changes the number of cached entries. -/
theorem attach_buffer_length (s : depth_buffer_manager_t) (i : Nat)
    (fb w h now : Int) :
    (attach_buffer s i fb w h now).buffers.length = s.buffers.length := by
  unfold attach_buffer
  cases hb : s.buffers[i]? with
  | none => rfl
  | some b =>
    simp only
    split_ifs with hc
    · rfl
    · simp [(free_buffer_state s b).1]

/-- When the entry at index i is attached to a different framebuffer,
attach_buffer frees it and overwrites it in place with a fresh
texture. -/
theorem attach_buffer_set (s : depth_buffer_manager_t) (i : Nat)
    (fb w h now : Int) (b : depth_buffer_t)
    (hb : s.buffers[i]? = some b) (hne : b.attached_to ≠ fb) :
    (attach_buffer s i fb w h now).buffers =
      s.buffers.set i
        { tex := s.next_tex, attached_to := fb, width := w, height := h,
          last_used := now } := by
  unfold attach_buffer
  rw [hb]
  simp only [if_neg (by simp [hne] : ¬(b.attached_to = fb ∧ b.width = w ∧ b.height = h))]
  rw [(free_buffer_state s b).1, (free_buffer_state s b).2.2.1]

/-- Claim C4: the cache never grows beyond MAX_BUFFERS = 3 entries,
and when ensure_depth_buffer runs for a fresh framebuffer id (counter
positive, fb nonzero, no entry attached to fb) while the cache is
full, the entry replaced is one with the smallest last_used timestamp
(the first such entry), and it is reused for the new id with a freshly
generated texture and last_used set to the current time. -/
theorem depth_cache_bounded_and_lru :
    (∀ (s : depth_buffer_manager_t) (fb w h now : Int),
      s.buffers.length ≤ MAX_BUFFERS →
      (ensure_depth_buffer s fb w h now).buffers.length ≤ MAX_BUFFERS) ∧
    (∀ (s : depth_buffer_manager_t) (fb w h now : Int),
      0 < s.required_counter → fb ≠ 0 →
      (∀ b ∈ s.buffers, b.attached_to ≠ fb) →
      s.buffers.length = 3 →
      ∃ bmin, s.buffers[oldestIdx s.buffers]? = some bmin ∧
        (∀ b ∈ s.buffers, bmin.last_used ≤ b.last_used) ∧
        (ensure_depth_buffer s fb w h now).buffers =
          s.buffers.set (oldestIdx s.buffers)
            { tex := s.next_tex, attached_to := fb, width := w, height := h,
              last_used := now }) := by
  constructor
  · intro s fb w h now hlen
    unfold ensure_depth_buffer
    split_ifs with h0
    · exact hlen
    · simp only
      rw [attach_buffer_length]
      unfold find_buffer
      cases hf : s.buffers.findIdx? (fun b => b.attached_to == fb) with
      | some i => exact hlen
      | none =>
        simp only
        split_ifs with hlt
        · have hlt3 : s.buffers.length < 3 := by simpa [MAX_BUFFERS] using hlt
          simp only [MAX_BUFFERS]
          simp
          omega
        · exact hlen
  · intro s fb w h now hcnt hfb hnone hlen3
    have hfind : s.buffers.findIdx? (fun b => b.attached_to == fb) = none := by
      rw [List.findIdx?_eq_none_iff]
      intro b hb
      simpa using hnone b hb
    have hnotlt : ¬(s.buffers.length < MAX_BUFFERS) := by
      rw [hlen3]
      decide
    have hens : ensure_depth_buffer s fb w h now =
        attach_buffer s (oldestIdx s.buffers) fb w h now := by
      unfold ensure_depth_buffer find_buffer
      rw [if_neg (by push_neg; exact ⟨hfb, by omega⟩), hfind]
      simp only [if_neg hnotlt]
    obtain ⟨b0, b1, b2, hb⟩ : ∃ b0 b1 b2, s.buffers = [b0, b1, b2] := by
      rcases hl0 : s.buffers with _ | ⟨b0, rest0⟩
      · rw [hl0] at hlen3; simp at hlen3
      rcases hl1 : rest0 with _ | ⟨b1, rest1⟩
      · rw [hl0, hl1] at hlen3; simp at hlen3
      rcases hl2 : rest1 with _ | ⟨b2, rest2⟩
      · rw [hl0, hl1, hl2] at hlen3; simp at hlen3
      rcases hl3 : rest2 with _ | ⟨b3, rest3⟩
      · exact ⟨b0, b1, b2, rfl⟩
      · rw [hl0, hl1, hl2, hl3] at hlen3; simp at hlen3
    have hmem : ∀ x, x = b0 ∨ x = b1 ∨ x = b2 → x ∈ s.buffers := by
      intro x hx
      rw [hb]
      rcases hx with hx | hx | hx <;> simp [hx]
    by_cases h01 : b1.last_used < b0.last_used
    · by_cases h12 : b2.last_used < b1.last_used
      · have hidx : oldestIdx s.buffers = 2 := by
          rw [hb]; simp [oldestIdx, oldest_go, h01, h12]
        refine ⟨b2, by rw [hidx, hb]; rfl, ?_, ?_⟩
        · intro b hbb
          rw [hb] at hbb
          simp only [List.mem_cons, List.not_mem_nil, or_false] at hbb
          rcases hbb with hbb | hbb | hbb <;> rw [hbb] <;> omega
        · rw [hens, hidx]
          exact attach_buffer_set s 2 fb w h now b2 (by rw [hb]; rfl)
            (hnone b2 (hmem b2 (Or.inr (Or.inr rfl))))
      · have hidx : oldestIdx s.buffers = 1 := by
          rw [hb]; simp [oldestIdx, oldest_go, h01, h12]
        refine ⟨b1, by rw [hidx, hb]; rfl, ?_, ?_⟩
        · intro b hbb
          rw [hb] at hbb
          simp only [List.mem_cons, List.not_mem_nil, or_false] at hbb
          rcases hbb with hbb | hbb | hbb <;> rw [hbb] <;> omega
        · rw [hens, hidx]
          exact attach_buffer_set s 1 fb w h now b1 (by rw [hb]; rfl)
            (hnone b1 (hmem b1 (Or.inr (Or.inl rfl))))
    · by_cases h02 : b2.last_used < b0.last_used
      · have hidx : oldestIdx s.buffers = 2 := by
          rw [hb]; simp [oldestIdx, oldest_go, h01, h02]
        refine ⟨b2, by rw [hidx, hb]; rfl, ?_, ?_⟩
        · intro b hbb
          rw [hb] at hbb
          simp only [List.mem_cons, List.not_mem_nil, or_false] at hbb
          rcases hbb with hbb | hbb | hbb <;> rw [hbb] <;> omega
        · rw [hens, hidx]
          exact attach_buffer_set s 2 fb w h now b2 (by rw [hb]; rfl)
            (hnone b2 (hmem b2 (Or.inr (Or.inr rfl))))
      · have hidx : oldestIdx s.buffers = 0 := by
          rw [hb]; simp [oldestIdx, oldest_go, h01, h02]
        refine ⟨b0, by rw [hidx, hb]; rfl, ?_, ?_⟩
        · intro b hbb
          rw [hb] at hbb
          simp only [List.mem_cons, List.not_mem_nil, or_false] at hbb
          rcases hbb with hbb | hbb | hbb <;> rw [hbb] <;> omega
        · rw [hens, hidx]
          exact attach_buffer_set s 0 fb w h now b0 (by rw [hb]; rfl)
            (hnone b0 (hmem b0 (Or.inl rfl)))

/- ------------------------------------------------------------------ -/
/- Effect hook registry, postprocessing chain, direct scan-out         -/
/- ------------------------------------------------------------------ -/

/-- The four effect stages of output_effect_type_t (OUTPUT_EFFECT_PRE,
DAMAGE, OVERLAY, POST); OUTPUT_EFFECT_TOTAL = 4. -/
inductive output_effect_type_t where
  | pre
  | damage
  | overlay
  | post
deriving Repr, DecidableEq

/-- Modelled from the spec: wf::safe_list_t (not under src/) is an
ordered callback list whose remove_all removes every element equal to
the argument; hook pointers are modelled as natural numbers. -/
def safe_list_remove_all (l : List Nat) (hook : Nat) : List Nat :=
  l.filter (fun x => x != hook)

/-- effect_hook_manager_t: one safe_list per stage. -/
structure effect_hook_manager_t where
  effects : output_effect_type_t → List Nat

/-- effect_hook_manager_t::add_effect. -/
def effect_hook_manager_t.add_effect (s : effect_hook_manager_t)
    (hook : Nat) (type : output_effect_type_t) : effect_hook_manager_t :=
  { effects := fun t => if t = type then s.effects t ++ [hook] else s.effects t }

/-- effect_hook_manager_t::can_scanout: OVERLAY and POST must both be
empty. -/
def effect_hook_manager_t.can_scanout (s : effect_hook_manager_t) : Bool :=
  (s.effects output_effect_type_t.overlay).length == 0 &&
    (s.effects output_effect_type_t.post).length == 0

/-- effect_hook_manager_t::rem_effect: remove_all of the hook on every
one of the four stage lists. -/
def effect_hook_manager_t.rem_effect (s : effect_hook_manager_t)
    (hook : Nat) : effect_hook_manager_t :=
  { effects := fun t => safe_list_remove_all (s.effects t) hook }

/-- postprocessing_manager_t, reduced to its chain of post hooks. -/
structure postprocessing_manager_t where
  post_effects : List Nat

/-- postprocessing_manager_t::can_scanout: the chain must be empty. -/
def postprocessing_manager_t.can_scanout (s : postprocessing_manager_t) : Bool :=
  s.post_effects.length == 0

/-- The inputs of render_manager::impl::do_direct_scanout.
wlr_scanout_allowed models wlr_output_is_direct_scanout_allowed,
icc_color_transform_null the icc_color_transform == nullptr test and
env_allow_scanout the WAYFIRE_DISABLE_DIRECT_SCANOUT environment
gate. -/
structure ScanoutContext where
  output_inhibit_counter : Int
  effects : effect_hook_manager_t
  postprocessing : postprocessing_manager_t
  wlr_scanout_allowed : Bool
  icc_color_transform_null : Bool
  env_allow_scanout : Bool

/-- Whether do_direct_scanout reaches try_scanout_from_list (the
shortcut is attempted) rather than returning early. -/
def do_direct_scanout_attempted (c : ScanoutContext) : Bool :=
  let can_scanout := (c.output_inhibit_counter == 0) &&
    c.effects.can_scanout && c.postprocessing.can_scanout &&
    c.wlr_scanout_allowed && c.icc_color_transform_null
  can_scanout && c.env_allow_scanout

/-- Claim C9: the effect-hook query answers emptiness of OVERLAY and
POST exactly, the postprocessing query answers emptiness of the chain
exactly, and within a frame the direct scan-out shortcut is attempted
only when both queries are positive. -/
theorem scanout_queries_are_emptiness :
    (∀ s : effect_hook_manager_t, s.can_scanout = true ↔
      s.effects output_effect_type_t.overlay = [] ∧
        s.effects output_effect_type_t.post = []) ∧
    (∀ p : postprocessing_manager_t, p.can_scanout = true ↔
      p.post_effects = []) ∧
    (∀ c : ScanoutContext, do_direct_scanout_attempted c = true →
      c.effects.can_scanout = true ∧ c.postprocessing.can_scanout = true) := by
  refine ⟨?_, ?_, ?_⟩
  · intro s
    simp [effect_hook_manager_t.can_scanout, List.length_eq_zero]
  · intro p
    simp [postprocessing_manager_t.can_scanout, List.length_eq_zero]
  · intro c hc
    simp only [do_direct_scanout_attempted, Bool.and_eq_true] at hc
    exact ⟨hc.1.1.1.1.2, hc.1.1.1.2⟩

/-- Witness for C9: in a context with no hooks, no postprocessing and
nothing else inhibiting, the shortcut is attempted and both queries
report empty. -/
theorem scanout_queries_are_emptiness_witness :
    effect_hook_manager_t.can_scanout ⟨fun _ => []⟩ = true ∧
    postprocessing_manager_t.can_scanout ⟨[]⟩ = true := by
  exact scanout_queries_are_emptiness.2.2
    ⟨0, ⟨fun _ => []⟩, ⟨[]⟩, true, true, true⟩ rfl

/-- Claim C10: after rem_effect(h), h is registered under no stage at
all, and every other hook keeps its registration count on every
stage. -/
theorem rem_effect_removes_hook_everywhere (s : effect_hook_manager_t)
    (hook : Nat) :
    (∀ t, hook ∉ (s.rem_effect hook).effects t) ∧
    (∀ t g, g ≠ hook →
      ((s.rem_effect hook).effects t).count g = (s.effects t).count g) := by
  constructor
  · intro t
    simp [effect_hook_manager_t.rem_effect, safe_list_remove_all,
      List.mem_filter]
  · intro t g hg
    simp only [effect_hook_manager_t.rem_effect, safe_list_remove_all]
    rw [List.count_filter]
    simp [hg]

/-- Witness for C10 at a registry carrying hook 1 twice and hook 2 once
on every stage. -/
theorem rem_effect_removes_hook_everywhere_witness :
    (1 : Nat) ∉ (effect_hook_manager_t.rem_effect ⟨fun _ => [1, 2, 1]⟩ 1).effects
        output_effect_type_t.pre ∧
    ((effect_hook_manager_t.rem_effect ⟨fun _ => [1, 2, 1]⟩ 1).effects
        output_effect_type_t.pre).count 2 = ([1, 2, 1] : List Nat).count 2 := by
  refine ⟨(rem_effect_removes_hook_everywhere ⟨fun _ => [1, 2, 1]⟩ 1).1
    output_effect_type_t.pre, ?_⟩
  exact (rem_effect_removes_hook_everywhere ⟨fun _ => [1, 2, 1]⟩ 1).2
    output_effect_type_t.pre 2 (by decide)

/- ------------------------------------------------------------------ -/
/- Scene transform stack: transform_manager_node_t::_add_transformer  -/
/- ------------------------------------------------------------------ -/

/-- One entry of the transformers vector of transform_manager_node_t.
Scene nodes are identified by natural numbers. -/
structure added_transformer_t where
  node : Nat
  z_order : Int
  name : String
deriving Repr, DecidableEq

/-- The insertion position computed by _add_transformer: the loop
advances while transformers[pos].z_order < z_order, so it stops at the
first entry whose z-order is greater than OR EQUAL to the new one. -/
def transformer_insert_pos : List added_transformer_t → Int → Nat
  | [], _ => 0
  | a :: rest, z =>
    if a.z_order < z then transformer_insert_pos rest z + 1 else 0

/-- Modelled from the spec: the insertion position the claim
describes, immediately before the first existing transformer whose
z-order is STRICTLY greater than the new one. -/
def claimed_insert_pos : List added_transformer_t → Int → Nat
  | [], _ => 0
  | a :: rest, z =>
    if z < a.z_order then 0 else claimed_insert_pos rest z + 1

/-- The transform manager node (id 0) with its transformers vector and
the children lists of all scene nodes, modelling get_children and
set_children_list. -/
structure transform_manager_node_t where
  transformers : List added_transformer_t
  children : Nat → List Nat

/-- The parent chosen by _add_transformer: the node at the insertion
position, or the manager itself (id 0) when inserting at the end. -/
def insertion_parent (s : transform_manager_node_t) (z : Int) : Nat :=
  match s.transformers[transformer_insert_pos s.transformers z]? with
  | some a => a.node
  | none => 0

/-- transform_manager_node_t::_add_transformer: insert the entry into
the vector at the computed position, then splice the node between the
chosen parent and the prior children of that parent.  The damage calls
do not affect this state and are omitted. -/
def _add_transformer (s : transform_manager_node_t) (node : Nat)
    (z_order : Int) (name : String) : transform_manager_node_t :=
  let pos := transformer_insert_pos s.transformers z_order
  let parent := insertion_parent s z_order
  let prior_children := s.children parent
  { transformers := List.insertIdx pos ⟨node, z_order, name⟩ s.transformers,
    children := fun n =>
      if n = parent then [node]
      else if n = node then prior_children
      else s.children n }

theorem transformer_insert_pos_le (l : List added_transformer_t) (z : Int) :
    transformer_insert_pos l z ≤ l.length := by
  induction l with
  | nil => simp [transformer_insert_pos]
  | cons a rest ih =>
    simp only [transformer_insert_pos, List.length_cons]
    split_ifs
    · omega
    · omega

/-- The computed position is the first whose entry has z-order at
least the new z-order: all earlier entries are strictly below it, and
the entry at the position (if any) is at or above it. -/
theorem transformer_insert_pos_first (l : List added_transformer_t) (z : Int) :
    (∀ j a, j < transformer_insert_pos l z → l[j]? = some a →
      a.z_order < z) ∧
    (∀ a, l[transformer_insert_pos l z]? = some a → z ≤ a.z_order) := by
  induction l with
  | nil =>
    constructor
    · intro j a hj
      simp [transformer_insert_pos] at hj
    · intro a ha
      simp at ha
  | cons b rest ih =>
    by_cases hba : b.z_order < z
    · constructor
      · intro j a hj ha
        simp only [transformer_insert_pos, if_pos hba] at hj
        cases j with
        | zero =>
          simp only [List.getElem?_cons_zero, Option.some.injEq] at ha
          rw [← ha]
          exact hba
        | succ j =>
          simp only [List.getElem?_cons_succ] at ha
          exact ih.1 j a (by omega) ha
      · intro a ha
        simp only [transformer_insert_pos, if_pos hba,
          List.getElem?_cons_succ] at ha
        exact ih.2 a ha
    · constructor
      · intro j a hj
        simp [transformer_insert_pos, if_neg hba] at hj
      · intro a ha
        simp only [transformer_insert_pos, if_neg hba,
          List.getElem?_cons_zero, Option.some.injEq] at ha
        rw [← ha]
        omega

/-- Inserting at the computed position preserves ascending z-order. -/
theorem transformer_insert_pos_sorted (l : List added_transformer_t)
    (a : added_transformer_t)
    (hs : List.Sorted (fun x y => x.z_order ≤ y.z_order) l) :
    List.Sorted (fun x y => x.z_order ≤ y.z_order)
      (List.insertIdx (transformer_insert_pos l a.z_order) a l) := by
  induction l with
  | nil => simp [transformer_insert_pos]
  | cons b rest ih =>
    rw [List.sorted_cons] at hs
    by_cases hba : b.z_order < a.z_order
    · simp only [transformer_insert_pos, if_pos hba, List.insertIdx_succ_cons]
      rw [List.sorted_cons]
      constructor
      · intro y hy
        rcases (List.mem_insertIdx
            (transformer_insert_pos_le rest a.z_order)).mp hy with hy | hy
        · rw [hy]
          omega
        · exact hs.1 y hy
      · exact ih hs.2
    · simp only [transformer_insert_pos, if_neg hba, List.insertIdx_zero]
      rw [List.sorted_cons]
      refine ⟨?_, List.sorted_cons.mpr hs⟩
      intro y hy
      rcases List.mem_cons.mp hy with hy | hy
      · rw [hy]
        omega
      · have := hs.1 y hy
        omega

/-- The chosen parent is never the freshly inserted node. -/
theorem insertion_parent_ne (s : transform_manager_node_t) (z : Int)
    (node : Nat) (hnode0 : node ≠ 0)
    (hfresh : ∀ a ∈ s.transformers, a.node ≠ node) :
    insertion_parent s z ≠ node := by
  unfold insertion_parent
  cases ha : s.transformers[transformer_insert_pos s.transformers z]? with
  | none => exact fun hc => hnode0 hc.symm
  | some a =>
    simp only
    exact hfresh a (List.getElem?_mem ha)

/-- Claim C5, counterexample: the insertion loop stops at the first
entry with z-order greater than OR EQUAL to the new one, not strictly
greater.  Inserting node 1 at z-order 5 and then node 2 at the same
z-order 5 puts node 2 FIRST, while the claim (insert before the first
strictly greater z-order, first-inserted wins ties) predicts position
1 and the order [1, 2]. -/
theorem add_transformer_tie_counterexample :
    ((_add_transformer (_add_transformer ⟨[], fun _ => []⟩ 1 5 "a")
        2 5 "b").transformers.map (fun a => a.node)) = [2, 1] ∧
    transformer_insert_pos [⟨1, 5, "a"⟩] 5 = 0 ∧
    claimed_insert_pos [⟨1, 5, "a"⟩] 5 = 1 ∧
    [2, 1] ≠ [1, 2] := by
  exact ⟨rfl, rfl, rfl, by decide⟩

/-- Claim C5, amended: _add_transformer inserts the new transformer
immediately before the first existing transformer whose z-order is
greater than or equal to the new one (so among equal z-orders the
most recently inserted occupies the earlier position); the list stays
sorted by ascending z-order, and the new node is spliced between the
chosen parent and the prior children at that position. -/
theorem add_transformer_insertion_spec (s : transform_manager_node_t)
    (node : Nat) (z : Int) (name : String)
    (hs : List.Sorted (fun x y => x.z_order ≤ y.z_order) s.transformers)
    (hnode0 : node ≠ 0)
    (hfresh : ∀ a ∈ s.transformers, a.node ≠ node) :
    (_add_transformer s node z name).transformers =
      List.insertIdx (transformer_insert_pos s.transformers z)
        ⟨node, z, name⟩ s.transformers ∧
    (∀ j a, j < transformer_insert_pos s.transformers z →
      s.transformers[j]? = some a → a.z_order < z) ∧
    (∀ a, s.transformers[transformer_insert_pos s.transformers z]? = some a →
      z ≤ a.z_order) ∧
    List.Sorted (fun x y => x.z_order ≤ y.z_order)
      (_add_transformer s node z name).transformers ∧
    (_add_transformer s node z name).children (insertion_parent s z) =
      [node] ∧
    (_add_transformer s node z name).children node =
      s.children (insertion_parent s z) := by
  have hne : node ≠ insertion_parent s z :=
    Ne.symm (insertion_parent_ne s z node hnode0 hfresh)
  refine ⟨rfl, (transformer_insert_pos_first s.transformers z).1,
    (transformer_insert_pos_first s.transformers z).2, ?_, ?_, ?_⟩
  · exact transformer_insert_pos_sorted s.transformers ⟨node, z, name⟩ hs
  · show (if insertion_parent s z = insertion_parent s z then [node]
      else if insertion_parent s z = node
        then s.children (insertion_parent s z)
        else s.children (insertion_parent s z)) = [node]
    rw [if_pos rfl]
  · show (if node = insertion_parent s z then [node]
      else if node = node then s.children (insertion_parent s z)
      else s.children node) = s.children (insertion_parent s z)
    rw [if_neg hne, if_pos rfl]

/-- Witness for the amended C5: adding node 2 at z-order 5 after a
single transformer (node 1, z-order 3) appends it at the end, makes it
the sole child of the manager and hands it the prior children. -/
theorem add_transformer_insertion_spec_witness :
    (_add_transformer ⟨[⟨1, 3, "u"⟩], fun _ => [7]⟩ 2 5 "t").children
        (insertion_parent ⟨[⟨1, 3, "u"⟩], fun _ => [7]⟩ 5) = [2] ∧
    (_add_transformer ⟨[⟨1, 3, "u"⟩], fun _ => [7]⟩ 2 5 "t").children 2 =
      transform_manager_node_t.children ⟨[⟨1, 3, "u"⟩], fun _ => [7]⟩
        (insertion_parent ⟨[⟨1, 3, "u"⟩], fun _ => [7]⟩ 5) := by
  have h := add_transformer_insertion_spec
    ⟨[⟨1, 3, "u"⟩], fun _ => [7]⟩ 2 5 "t" (by simp) (by decide)
    (by intro a ha; simp at ha; rw [ha]; decide)
  exact ⟨h.2.2.2.2.1, h.2.2.2.2.2⟩

/-- Witness for C4: inserting a fourth distinct framebuffer id into a
full cache with ascending timestamps evicts exactly the first (least
recently used) entry. -/
theorem depth_cache_bounded_and_lru_witness :
    (ensure_depth_buffer ⟨1, [], [], 1⟩ 1 100 100 10).buffers.length ≤
      MAX_BUFFERS ∧
    (ensure_depth_buffer
      ⟨1, [⟨1, 1, 100, 100, 10⟩, ⟨2, 2, 100, 100, 20⟩, ⟨3, 3, 100, 100, 30⟩],
        [], 4⟩ 4 100 100 40).buffers =
      [⟨4, 4, 100, 100, 40⟩, ⟨2, 2, 100, 100, 20⟩, ⟨3, 3, 100, 100, 30⟩] := by
  constructor
  · exact depth_cache_bounded_and_lru.1 ⟨1, [], [], 1⟩ 1 100 100 10 (by decide)
  · obtain ⟨bmin, h1, h2, h3⟩ := depth_cache_bounded_and_lru.2
      ⟨1, [⟨1, 1, 100, 100, 10⟩, ⟨2, 2, 100, 100, 20⟩, ⟨3, 3, 100, 100, 30⟩],
        [], 4⟩ 4 100 100 40 (by decide) (by decide) (by decide) (by decide)
    rw [h3]
    decide

/- ------------------------------------------------------------------ -/
/- 2D transformer: view_2d_transformer_t                               -/
/- ------------------------------------------------------------------ -/

/-- wf::pointf_t.  The double coordinates are modelled as reals; the
specification states the geometric properties exactly over the
reals. -/
structure pointf_t where
  x : ℝ
  y : ℝ

/-- The values view_2d_transformer_t reads through its getters
(get_scale_x, get_scale_y, get_angle, get_translation_x or _y) plus
the center of the decorated view as computed by get_center. -/
structure view_2d_transformer_t where
  scale_x : ℝ
  scale_y : ℝ
  angle : ℝ
  translation_x : ℝ
  translation_y : ℝ
  midpoint : pointf_t

/-- rotate_xy from view-3d.cpp: rotate (x, y) by the given angle. -/
noncomputable def rotate_xy (x y angle : ℝ) : ℝ × ℝ :=
  (Real.cos angle * x - Real.sin angle * y,
   Real.sin angle * x + Real.cos angle * y)

/-- view_2d_transformer_t::to_local: subtract the midpoint, undo the
translation, rotate by the angle, undo the scales, restore the
midpoint. -/
noncomputable def to_local_2d (t : view_2d_transformer_t) (p : pointf_t) :
    pointf_t :=
  let rx := p.x - t.midpoint.x - t.translation_x
  let ry := p.y - t.midpoint.y - t.translation_y
  let r := rotate_xy rx ry t.angle
  ⟨r.1 / t.scale_x + t.midpoint.x, r.2 / t.scale_y + t.midpoint.y⟩

/-- view_2d_transformer_t::to_global: subtract the midpoint, apply the
scales, rotate by the negated angle, apply the translation, restore
the midpoint. -/
noncomputable def to_global_2d (t : view_2d_transformer_t) (p : pointf_t) :
    pointf_t :=
  let rx := (p.x - t.midpoint.x) * t.scale_x
  let ry := (p.y - t.midpoint.y) * t.scale_y
  let r := rotate_xy rx ry (-t.angle)
  ⟨r.1 + t.translation_x + t.midpoint.x, r.2 + t.translation_y + t.midpoint.y⟩

/-- Claim C6: for nonzero scales, to_global inverts to_local exactly
over the reals, for every point and every angle, translation and
center. -/
theorem to_global_to_local_roundtrip (t : view_2d_transformer_t)
    (p : pointf_t) (hsx : t.scale_x ≠ 0) (hsy : t.scale_y ≠ 0) :
    to_global_2d t (to_local_2d t p) = p := by
  obtain ⟨px, py⟩ := p
  obtain ⟨sx, sy, a, tx, ty, mx, my⟩ := t
  have hc := Real.sin_sq_add_cos_sq a
  simp only [to_local_2d, to_global_2d, rotate_xy, Real.cos_neg,
    Real.sin_neg] at *
  rw [pointf_t.mk.injEq]
  constructor
  · field_simp
    linear_combination (px - mx - tx) * hc
  · field_simp
    linear_combination (py - my - ty) * hc

/-- Witness for C6 at the identity transformer and the point (3, 4). -/
theorem to_global_to_local_roundtrip_witness :
    (1 : ℝ) ≠ 0 ∧
    to_global_2d ⟨1, 1, 0, 0, 0, ⟨0, 0⟩⟩
      (to_local_2d ⟨1, 1, 0, 0, 0, ⟨0, 0⟩⟩ ⟨3, 4⟩) = ⟨3, 4⟩ :=
  ⟨one_ne_zero, to_global_to_local_roundtrip ⟨1, 1, 0, 0, 0, ⟨0, 0⟩⟩ ⟨3, 4⟩
    one_ne_zero one_ne_zero⟩

/- ------------------------------------------------------------------ -/
/- 3D transformer: view_3d_transformer_t::to_local                     -/
/- ------------------------------------------------------------------ -/

/-- A glm::mat4 over the reals; field mIJ is tr[I][J] in the source,
that is column I, row J. -/
structure mat4 where
  m00 : ℝ
  m01 : ℝ
  m02 : ℝ
  m03 : ℝ
  m10 : ℝ
  m11 : ℝ
  m12 : ℝ
  m13 : ℝ
  m20 : ℝ
  m21 : ℝ
  m22 : ℝ
  m23 : ℝ
  m30 : ℝ
  m31 : ℝ
  m32 : ℝ
  m33 : ℝ

/-- wf::geometry_t; the integer coordinates of the source are embedded
into the reals. -/
structure geometry_t where
  x : ℝ
  y : ℝ
  width : ℝ
  height : ℝ

/-- Modelled from the spec: wf::compositor_core_t::invalid_coordinate
is declared outside src/; the spec only requires a distinguished
explicit invalid sentinel value for the no-solution case. -/
noncomputable def invalid_coordinate : ℝ := -1000000000

/-- get_center_relative_coords from view-3d.cpp. -/
noncomputable def get_center_relative_coords (view : geometry_t)
    (point : pointf_t) : pointf_t :=
  ⟨(point.x - view.x) - view.width / 2, view.height / 2 - (point.y - view.y)⟩

/-- get_absolute_coords_from_relative from view-3d.cpp. -/
noncomputable def get_absolute_coords_from_relative (view : geometry_t)
    (point : pointf_t) : pointf_t :=
  ⟨point.x + view.x + view.width / 2, (view.height / 2 - point.y) + view.y⟩

/-- The determinant of the 2x2 matrix A of the linear system solved by
view_3d_transformer_t::to_local: glm::dmat2 A{p.x tr[0][3] - tr[0][0],
p.y tr[0][3] - tr[0][1], p.x tr[1][3] - tr[1][0],
p.y tr[1][3] - tr[1][1]} is column-major, and glm takes
det = A[0][0] A[1][1] - A[0][1] A[1][0]. -/
noncomputable def to_local_3d_det (tr : mat4) (wm_geom : geometry_t)
    (point : pointf_t) : ℝ :=
  let p := get_center_relative_coords wm_geom point
  (p.x * tr.m03 - tr.m00) * (p.y * tr.m13 - tr.m11) -
    (p.y * tr.m03 - tr.m01) * (p.x * tr.m13 - tr.m10)

/-- view_3d_transformer_t::to_local, parameterized by the total
transform matrix (calculate_total_transform) and the children
bounding box.  When the determinant magnitude is below 1e-6 the
function returns the invalid sentinel in both components; otherwise it
solves A x = b through the explicit 2x2 inverse as the source does. -/
noncomputable def to_local_3d (tr : mat4) (wm_geom : geometry_t)
    (point : pointf_t) : pointf_t :=
  let p := get_center_relative_coords wm_geom point
  let a00 := p.x * tr.m03 - tr.m00
  let a10 := p.y * tr.m03 - tr.m01
  let a01 := p.x * tr.m13 - tr.m10
  let a11 := p.y * tr.m13 - tr.m11
  if |to_local_3d_det tr wm_geom point| < 1 / 1000000 then
    ⟨invalid_coordinate, invalid_coordinate⟩
  else
    let b0 := tr.m30 - p.x * tr.m33
    let b1 := tr.m31 - p.y * tr.m33
    let det := to_local_3d_det tr wm_geom point
    get_absolute_coords_from_relative wm_geom
      ⟨(a11 * b0 - a01 * b1) / det, (a00 * b1 - a10 * b0) / det⟩

/-- Claim C7: whenever the determinant of the 2x2 system extracted
from the total transform has magnitude below 1e-6, to_local returns
the invalid-coordinate sentinel in both components; the near-zero
division branch is not taken (the model is total, so no NaN or
exception can arise). -/
theorem to_local_3d_singular_sentinel (tr : mat4) (wm_geom : geometry_t)
    (point : pointf_t)
    (hdet : |to_local_3d_det tr wm_geom point| < 1 / 1000000) :
    to_local_3d tr wm_geom point =
      ⟨invalid_coordinate, invalid_coordinate⟩ := by
  unfold to_local_3d
  rw [if_pos hdet]

/-- Witness for C7 at the zero transform matrix, whose system is
exactly singular. -/
theorem to_local_3d_singular_sentinel_witness :
    |to_local_3d_det ⟨0, 0, 0, 0, 0, 0, 0, 0, 0, 0, 0, 0, 0, 0, 0, 0⟩
        ⟨0, 0, 100, 100⟩ ⟨5, 5⟩| < 1 / 1000000 ∧
    to_local_3d ⟨0, 0, 0, 0, 0, 0, 0, 0, 0, 0, 0, 0, 0, 0, 0, 0⟩
        ⟨0, 0, 100, 100⟩ ⟨5, 5⟩ =
      ⟨invalid_coordinate, invalid_coordinate⟩ := by
  have hd : |to_local_3d_det ⟨0, 0, 0, 0, 0, 0, 0, 0, 0, 0, 0, 0, 0, 0, 0, 0⟩
      ⟨0, 0, 100, 100⟩ ⟨5, 5⟩| < 1 / 1000000 := by
    simp only [to_local_3d_det, get_center_relative_coords]
    norm_num
  exact ⟨hd, to_local_3d_singular_sentinel _ _ _ hd⟩

/- ------------------------------------------------------------------ -/
/- Crossfade: crossfade_render_instance_t::render                      -/
/- ------------------------------------------------------------------ -/

/-- The two-piece blend curve of crossfade_render_instance_t::render
with N = 2: for overlay alpha a, if a < 0.5 the blend is
pow(2a, 1/N) / 2, otherwise pow((a - 0.5) * 2, N) / 2 + 0.5.  The
std::pow calls with real exponents are modelled by the real power
function. -/
noncomputable def crossfade_blend (a : ℝ) : ℝ :=
  if a < 1/2 then ((2 * a) ^ ((1:ℝ)/2)) / 2
  else (((a - 1/2) * 2) ^ ((2:ℝ))) / 2 + 1/2

/-- The opacity at which render draws the captured snapshot texture:
1.0 - ra in the add_texture call. -/
noncomputable def crossfade_render_opacity (a : ℝ) : ℝ :=
  1 - crossfade_blend a

theorem crossfade_blend_at_half : crossfade_blend (1/2 : ℝ) = 1/2 := by
  unfold crossfade_blend
  rw [if_neg (lt_irrefl _)]
  norm_num

/-- From the left of 1/2 the blend follows the square-root branch and
tends to 1/2. -/
theorem crossfade_blend_tendsto_left : Filter.Tendsto crossfade_blend
    (nhdsWithin (1/2 : ℝ) (Set.Iio (1/2 : ℝ))) (nhds (1/2 : ℝ)) := by
  have hev : ∀ᶠ x in nhdsWithin (1/2 : ℝ) (Set.Iio (1/2 : ℝ)),
      Real.sqrt (2 * x) / 2 = crossfade_blend x := by
    filter_upwards [self_mem_nhdsWithin] with x hx
    unfold crossfade_blend
    rw [if_pos (Set.mem_Iio.mp hx), Real.sqrt_eq_rpow]
  refine Filter.Tendsto.congr' hev ?_
  have hcont : Continuous (fun x : ℝ => Real.sqrt (2 * x) / 2) :=
    (Real.continuous_sqrt.comp (continuous_const.mul continuous_id)).div_const 2
  have ht : Filter.Tendsto (fun x : ℝ => Real.sqrt (2 * x) / 2)
      (nhdsWithin (1/2 : ℝ) (Set.Iio (1/2 : ℝ)))
      (nhds (Real.sqrt (2 * (1/2 : ℝ)) / 2)) :=
    (hcont.tendsto (1/2 : ℝ)).mono_left nhdsWithin_le_nhds
  simpa using ht

/-- From the right of 1/2 the blend follows the quadratic branch and
tends to 1/2. -/
theorem crossfade_blend_tendsto_right : Filter.Tendsto crossfade_blend
    (nhdsWithin (1/2 : ℝ) (Set.Ici (1/2 : ℝ))) (nhds (1/2 : ℝ)) := by
  have hev : ∀ᶠ x in nhdsWithin (1/2 : ℝ) (Set.Ici (1/2 : ℝ)),
      ((x - 1/2) * 2) ^ (2 : ℕ) / 2 + 1/2 = crossfade_blend x := by
    filter_upwards [self_mem_nhdsWithin] with x hx
    unfold crossfade_blend
    rw [if_neg (not_lt.mpr (Set.mem_Ici.mp hx))]
    rw [show ((2:ℝ) : ℝ) = ((2:ℕ) : ℝ) by norm_num, Real.rpow_natCast]
  refine Filter.Tendsto.congr' hev ?_
  have hcont : Continuous (fun x : ℝ => ((x - 1/2) * 2) ^ (2:ℕ) / 2 + 1/2) := by
    continuity
  have ht : Filter.Tendsto (fun x : ℝ => ((x - 1/2) * 2) ^ (2:ℕ) / 2 + 1/2)
      (nhdsWithin (1/2 : ℝ) (Set.Ici (1/2 : ℝ)))
      (nhds ((((1:ℝ)/2 - 1/2) * 2) ^ (2:ℕ) / 2 + 1/2)) :=
    (hcont.tendsto (1/2 : ℝ)).mono_left nhdsWithin_le_nhds
  simpa using ht

/-- Claim C8: the snapshot is rendered at opacity 1 - blend with the
two-piece N = 2 curve; the opacity is 1 at progress 0, 0 at progress
1, and the blend curve is continuous at progress 1/2. -/
theorem crossfade_snapshot_opacity_spec :
    crossfade_render_opacity 0 = 1 ∧
    crossfade_render_opacity 1 = 0 ∧
    (∀ a : ℝ, crossfade_render_opacity a = 1 - crossfade_blend a) ∧
    ContinuousAt crossfade_blend (1/2 : ℝ) := by
  refine ⟨?_, ?_, fun a => rfl, ?_⟩
  · unfold crossfade_render_opacity crossfade_blend
    rw [if_pos (by norm_num : (0:ℝ) < 1/2)]
    norm_num [Real.zero_rpow]
  · unfold crossfade_render_opacity crossfade_blend
    rw [if_neg (by norm_num : ¬((1:ℝ) < 1/2))]
    norm_num [Real.one_rpow]
  · unfold ContinuousAt
    rw [crossfade_blend_at_half]
    have key := Filter.Tendsto.sup crossfade_blend_tendsto_left
      crossfade_blend_tendsto_right
    exact key.mono_left (le_of_eq (nhds_left'_sup_nhds_right (1/2 : ℝ)).symm)
